import Mathlib

/-!
Verification of the frame-selection core of the Video-Analysis (Frames)
repository (`src/frame_selection.py`), shallowly embedded in Lean 4.

The three selectors (`uniform_sampling`, `scene_change_detection`,
`motion_based_sampling`) are translated function by function.  External
collaborators (the image decoder, the histogram distance and the dense
optical-flow primitive) are modelled as oracle parameters: per frame the
decoder either yields a feature (`ok`), yields nothing — `cv2.imread`
returning `None` — (`imgNone`), or raises an exception somewhere in the
per-frame body (`exc`).  Thresholds, feature distances and flow
magnitudes are Python floats; they are modelled by an arbitrary linearly
ordered type `q` (the selectors only ever compare these values and, for
the motion selector, test against zero), instantiated with `Int` in
concrete runs.
Python's `ValueError` is modelled as `SelectError.invalidInput`; an
uncaught per-frame exception propagating out of a selector is
`SelectError.processingFault`.
-/

namespace FrameSelection

/-- Errors a selector call can surface to the caller:
`invalidInput` is Python's `ValueError` raised by the argument checks;
`processingFault` is an uncaught exception escaping the scan loop. -/
inductive SelectError where
  | invalidInput (msg : String)
  | processingFault
deriving DecidableEq, Repr

/-- Outcome of the decode-and-feature step for one frame:
`imgNone` models `cv2.imread` returning `None`; `exc` models an exception
raised while processing this frame (before any state update); `ok v`
models a successful decode with computed feature `v`. -/
inductive FrameOutcome (β : Type) where
  | imgNone
  | exc
  | ok (v : β)
deriving DecidableEq, Repr

/-- Does this outcome model `cv2.imread` returning `None`? -/
def FrameOutcome.isFail {β : Type} : FrameOutcome β → Bool
  | .imgNone => true
  | _ => false

/-- Does this outcome model a raised exception? -/
def FrameOutcome.isExc {β : Type} : FrameOutcome β → Bool
  | .exc => true
  | _ => false

/-- Helper for `strided`: `c` counts down the positions to skip before
the next element is taken; after taking one, `k - 1` more are skipped. -/
def stridedAux {α : Type} (k : Nat) : Nat → List α → List α
  | _, [] => []
  | 0, a :: rest => a :: stridedAux k (k - 1) rest
  | c + 1, _ :: rest => stridedAux k c rest

/-- Python's extended slice `l[::k]` for `k ≥ 1`: the elements at
positions `0, k, 2k, …` of `l`. -/
def strided {α : Type} (k : Nat) (l : List α) : List α :=
  stridedAux k 0 l

/-- `uniform_sampling(frames, num_samples)` from `src/frame_selection.py`:
raises on an empty list or non-positive count, returns all frames when
`num_samples > len(frames)`, otherwise returns
`frames[::step][:num_samples]` with `step = len(frames) // num_samples`. -/
def uniform_sampling {α : Type} (frames : List α) (num_samples : Int) :
    Except SelectError (List α) :=
  if frames.isEmpty then .error (.invalidInput "Empty frames list provided")
  else if num_samples ≤ 0 then .error (.invalidInput "num_samples must be positive")
  else if num_samples > (frames.length : Int) then .ok frames
  else
    let step := frames.length / num_samples.toNat
    .ok ((strided step frames).take num_samples.toNat)

/-- The scan loop of `scene_change_detection`: walks the frame list with
the previous-histogram state `prev` and the accumulated output `acc`
(seeded with `frames[0]` by the caller).  A frame whose decode returns
no raster is skipped; an exception in the per-frame body propagates
(there is no `try` in this function); a decoded frame is appended when
its distance from the previous histogram exceeds `threshold`, and its
histogram always becomes the new state. -/
def sceneScan {α β q : Type} [LinearOrder q] (d : α → FrameOutcome β)
    (dist : β → β → q) (threshold : q) : List α → Option β → List α →
    Except SelectError (List α)
  | [], _, acc => .ok acc
  | f :: rest, prev, acc =>
    match d f with
    | .imgNone => sceneScan d dist threshold rest prev acc
    | .exc => .error .processingFault
    | .ok h =>
        sceneScan d dist threshold rest (some h)
          (match prev with
           | some ph => if dist ph h > threshold then acc ++ [f] else acc
           | none => acc)

/-- `scene_change_detection(frames, threshold)` from
`src/frame_selection.py`: raises on an empty list, seeds the output with
`frames[0]` unconditionally, then scans every frame (including the
first) with `sceneScan`.  There is no threshold validation. -/
def scene_change_detection {α β q : Type} [LinearOrder q]
    (d : α → FrameOutcome β) (dist : β → β → q) (frames : List α)
    (threshold : q) : Except SelectError (List α) :=
  match frames with
  | [] => .error (.invalidInput "Empty frames list provided")
  | f0 :: rest => sceneScan d dist threshold (f0 :: rest) none [f0]

/-- The scan loop of `motion_based_sampling`, returning both the
accumulated output and the final previous-raster state.  The whole
per-frame body sits in a `try`: a decode returning no raster or any
exception skips the frame, leaving state untouched.  With a previous
raster of a different shape than the current one, `continue` fires
before the state update, so neither the output nor the state changes.
Otherwise the flow magnitude decides the append and the current raster
becomes the new state. -/
def motionScanFull {α ρ q : Type} [LinearOrder q] (d : α → FrameOutcome ρ)
    (shp : ρ → Nat × Nat) (flowMag : ρ → ρ → q) (threshold : q) :
    List α → Option ρ → List α → List α × Option ρ
  | [], prev, acc => (acc, prev)
  | f :: rest, prev, acc =>
    match d f with
    | .imgNone => motionScanFull d shp flowMag threshold rest prev acc
    | .exc => motionScanFull d shp flowMag threshold rest prev acc
    | .ok r =>
      match prev with
      | some p =>
        if shp p ≠ shp r then
          motionScanFull d shp flowMag threshold rest (some p) acc
        else
          motionScanFull d shp flowMag threshold rest (some r)
            (if flowMag p r > threshold then acc ++ [f] else acc)
      | none => motionScanFull d shp flowMag threshold rest (some r) acc

/-- `motion_based_sampling(frames, threshold)` from
`src/frame_selection.py`: raises on an empty list or a negative
threshold, then scans with an empty initial output and no previous
raster. -/
def motion_based_sampling {α ρ q : Type} [LinearOrder q] [Zero q]
    (d : α → FrameOutcome ρ) (shp : ρ → Nat × Nat) (flowMag : ρ → ρ → q)
    (frames : List α) (threshold : q) : Except SelectError (List α) :=
  if frames.isEmpty then .error (.invalidInput "Empty frames list provided")
  else if threshold < 0 then .error (.invalidInput "threshold must be non-negative")
  else .ok (motionScanFull d shp flowMag threshold frames none []).1

/-! Concrete oracles for witnesses and counterexamples. -/

/-- Example decoder: frame `0` is undecodable, frame `n ≥ 1` decodes to
histogram `n`. -/
def decEx : Nat → FrameOutcome Int :=
  fun n => if n = 0 then .imgNone else .ok (n : Int)

/-- Example decoder that decodes every frame `n` to histogram `n`. -/
def decAll : Nat → FrameOutcome Int :=
  fun n => .ok (n : Int)

/-- Example decoder that raises on every frame. -/
def decExc : Nat → FrameOutcome Int :=
  fun _ => .exc

/-- Example histogram distance: absolute difference. -/
def distEx : Int → Int → Int :=
  fun a b => (b - a).natAbs

/-- Example grayscale decoder for the motion selector: frame `0` decodes
to a 1×1 raster, frames `n ≥ 1` to a 2×2 raster.  A raster is modelled
as its shape. -/
def decShape : Nat → FrameOutcome (Nat × Nat) :=
  fun n => if n = 0 then .ok (1, 1) else .ok (2, 2)

/-- Example grayscale decoder where every frame has the same 1×1 shape. -/
def decFlat : Nat → FrameOutcome (Nat × Nat) :=
  fun _ => .ok (1, 1)

/-- Example flow-magnitude oracle: constant mean magnitude 1. -/
def flowOne : (Nat × Nat) → (Nat × Nat) → Int :=
  fun _ _ => 1

/-! Lemmas about the slice `l[::k]`. -/

theorem stridedAux_sublist {α : Type} (k : Nat) :
    ∀ (c : Nat) (l : List α), (stridedAux k c l).Sublist l := by
  intro c l
  induction l generalizing c with
  | nil => simp [stridedAux]
  | cons a rest ih =>
    cases c with
    | zero =>
      simp only [stridedAux]
      exact (ih (k - 1)).cons₂ a
    | succ c =>
      simp only [stridedAux]
      exact (ih c).cons a

theorem length_le_stridedAux {α : Type} {k : Nat} (hk : 1 ≤ k) :
    ∀ (c : Nat) (l : List α), l.length ≤ c + k * (stridedAux k c l).length := by
  intro c l
  induction l generalizing c with
  | nil => simp
  | cons a rest ih =>
    cases c with
    | zero =>
      have h := ih (k - 1)
      simp only [stridedAux, List.length_cons, Nat.mul_succ]
      omega
    | succ c =>
      have h := ih c
      simp only [stridedAux, List.length_cons]
      omega

theorem stridedAux_getElem? {α : Type} {k : Nat} (hk : 1 ≤ k) :
    ∀ (l : List α) (c i : Nat), (stridedAux k c l)[i]? = l[c + i * k]? := by
  intro l
  induction l with
  | nil => intro c i; simp [stridedAux]
  | cons a rest ih =>
    intro c i
    obtain ⟨k', rfl⟩ : ∃ k', k = k' + 1 := ⟨k - 1, by omega⟩
    cases c with
    | zero =>
      cases i with
      | zero => simp [stridedAux]
      | succ i =>
        simp only [stridedAux, List.getElem?_cons_succ]
        rw [ih (k' + 1 - 1) i]
        have harith : 0 + (i + 1) * (k' + 1) = (k' + 1 - 1 + i * (k' + 1)) + 1 := by
          ring_nf
          omega
        rw [harith, List.getElem?_cons_succ]
    | succ c =>
      simp only [stridedAux]
      rw [ih c i]
      have harith : c + 1 + i * (k' + 1) = (c + i * (k' + 1)) + 1 := by omega
      rw [harith, List.getElem?_cons_succ]

theorem strided_one {α : Type} : ∀ (l : List α), strided 1 l = l := by
  intro l
  induction l with
  | nil => rfl
  | cons a rest ih =>
    simp only [strided, stridedAux] at ih ⊢
    rw [ih]

/-- C3.  For every non-empty frames list and positive count,
`uniform_sampling` returns the frames unchanged when `count ≥ len(frames)`;
when `0 < count < len(frames)` it returns a list of length exactly `count`
that is an order-preserving subsequence of `frames` whose `i`-th element is
the frame at position `i · stride` with `stride = len(frames) / count`. -/
theorem uniform_sampling_spec {α : Type} (frames : List α) (count : Int)
    (hne : frames ≠ []) (hpos : 0 < count) :
    (count ≥ (frames.length : Int) → uniform_sampling frames count = .ok frames) ∧
    (count < (frames.length : Int) →
      ∃ out, uniform_sampling frames count = .ok out ∧
        out.length = count.toNat ∧
        out.Sublist frames ∧
        ∀ i : Nat, i < count.toNat →
          out[i]? = frames[i * (frames.length / count.toNat)]?) := by
  have hempty : frames.isEmpty = false := by
    cases frames with
    | nil => exact absurd rfl hne
    | cons a l => rfl
  have hnotle : ¬ count ≤ 0 := by omega
  constructor
  · intro hge
    by_cases hgt : count > (frames.length : Int)
    · simp [uniform_sampling, hempty, hnotle, hgt]
    · have hlen : count = (frames.length : Int) := by omega
      have hct : count.toNat = frames.length := by omega
      have hstep : frames.length / count.toNat = 1 := by
        rw [hct]
        exact Nat.div_self (by cases frames with
          | nil => exact absurd rfl hne
          | cons a l => simp)
      simp only [uniform_sampling, hempty, Bool.false_eq_true, if_false,
        hnotle, hgt, if_false]
      rw [hstep, strided_one, hct, List.take_length]
  · intro hlt
    have hgt : ¬ count > (frames.length : Int) := by omega
    have hk : 1 ≤ frames.length / count.toNat := by
      rw [Nat.le_div_iff_mul_le (by omega)]
      omega
    refine ⟨(strided (frames.length / count.toNat) frames).take count.toNat,
      by simp [uniform_sampling, hempty, hnotle, hgt], ?_, ?_, ?_⟩
    · rw [List.length_take]
      have hbound : count.toNat ≤ (strided (frames.length / count.toNat) frames).length := by
        have h1 := length_le_stridedAux hk 0 frames
        have h2 : frames.length / count.toNat * count.toNat ≤ frames.length :=
          Nat.div_mul_le_self frames.length count.toNat
        have h3 : frames.length / count.toNat * count.toNat ≤
            frames.length / count.toNat *
              (strided (frames.length / count.toNat) frames).length := by
          simp only [strided]
          omega
        exact Nat.le_of_mul_le_mul_left h3 (by omega)
      omega
    · exact (List.take_sublist _ _).trans (stridedAux_sublist _ 0 frames)
    · intro i hi
      rw [List.getElem?_take, if_pos hi]
      simp only [strided]
      rw [stridedAux_getElem? hk frames 0 i, Nat.zero_add]

/-- Witness for C3 at `frames = [10, 20, 30, 40]`: with `count = 4` all
frames come back, with `count = 2` the stride is `2` and the result is
`[10, 30]`. -/
theorem uniform_sampling_spec_witness :
    (uniform_sampling ([10, 20, 30, 40] : List Nat) 4 = .ok [10, 20, 30, 40]) ∧
    (∃ out, uniform_sampling ([10, 20, 30, 40] : List Nat) 2 = .ok out ∧
      out.length = (2 : Int).toNat ∧
      out.Sublist [10, 20, 30, 40] ∧
      ∀ i : Nat, i < (2 : Int).toNat →
        out[i]? =
          [10, 20, 30, 40][i * (([10, 20, 30, 40] : List Nat).length / (2 : Int).toNat)]?) := by
  constructor
  · exact (uniform_sampling_spec [10, 20, 30, 40] 4 (by decide) (by decide)).1
      (by decide)
  · exact (uniform_sampling_spec [10, 20, 30, 40] 2 (by decide) (by decide)).2
      (by decide)

/-! Lemmas about the scene-change scan. -/

/-- The scene scan only ever appends to its accumulator. -/
theorem sceneScan_acc_extends {α β q : Type} [LinearOrder q]
    (d : α → FrameOutcome β) (dist : β → β → q) (t : q) :
    ∀ (fs : List α) (prev : Option β) (acc out : List α),
      sceneScan d dist t fs prev acc = .ok out → ∃ s, out = acc ++ s := by
  intro fs
  induction fs with
  | nil =>
    intro prev acc out h
    simp only [sceneScan] at h
    exact ⟨[], by simpa using (Except.ok.inj h).symm⟩
  | cons f rest ih =>
    intro prev acc out h
    simp only [sceneScan] at h
    cases hd : d f with
    | imgNone =>
      rw [hd] at h
      exact ih prev acc out h
    | exc =>
      rw [hd] at h
      cases h
    | ok v =>
      simp only [hd] at h
      cases prev with
      | none => exact ih (some v) acc out h
      | some ph =>
        have h' : sceneScan d dist t rest (some v)
            (if dist ph v > t then acc ++ [f] else acc) = .ok out := h
        by_cases hc : dist ph v > t
        · rw [if_pos hc] at h'
          obtain ⟨s, hs⟩ := ih (some v) (acc ++ [f]) out h'
          exact ⟨[f] ++ s, by simpa using hs⟩
        · rw [if_neg hc] at h'
          exact ih (some v) acc out h'

/-- If no frame of the scan raises, the scene scan returns a result. -/
theorem sceneScan_ok {α β q : Type} [LinearOrder q]
    (d : α → FrameOutcome β) (dist : β → β → q) (t : q) :
    ∀ (fs : List α) (prev : Option β) (acc : List α),
      (∀ f ∈ fs, (d f).isExc = false) →
      ∃ out, sceneScan d dist t fs prev acc = .ok out := by
  intro fs
  induction fs with
  | nil => intro prev acc _; exact ⟨acc, rfl⟩
  | cons f rest ih =>
    intro prev acc hno
    have hf : (d f).isExc = false := hno f (by simp)
    have hrest : ∀ g ∈ rest, (d g).isExc = false := fun g hg => hno g (by simp [hg])
    simp only [sceneScan]
    cases hd : d f with
    | imgNone => exact ih prev acc hrest
    | exc => rw [hd] at hf; simp [FrameOutcome.isExc] at hf
    | ok v =>
      cases prev with
      | none => exact ih (some v) acc hrest
      | some ph => exact ih (some v) _ hrest

/-- Raising the threshold can only shrink what the scene scan appends:
with `t₁ ≤ t₂` and accumulators related by sublist, the scan's results
are related by sublist. -/
theorem sceneScan_mono {α β q : Type} [LinearOrder q]
    (d : α → FrameOutcome β) (dist : β → β → q) {t₁ t₂ : q} (ht : t₁ ≤ t₂) :
    ∀ (fs : List α) (prev : Option β) (acc₁ acc₂ out₁ out₂ : List α),
      acc₂.Sublist acc₁ →
      sceneScan d dist t₁ fs prev acc₁ = .ok out₁ →
      sceneScan d dist t₂ fs prev acc₂ = .ok out₂ →
      out₂.Sublist out₁ := by
  intro fs
  induction fs with
  | nil =>
    intro prev acc₁ acc₂ out₁ out₂ hsub h1 h2
    simp only [sceneScan] at h1 h2
    rw [← Except.ok.inj h1, ← Except.ok.inj h2]
    exact hsub
  | cons f rest ih =>
    intro prev acc₁ acc₂ out₁ out₂ hsub h1 h2
    simp only [sceneScan] at h1 h2
    cases hd : d f with
    | imgNone =>
      rw [hd] at h1 h2
      exact ih prev acc₁ acc₂ out₁ out₂ hsub h1 h2
    | exc =>
      rw [hd] at h1
      cases h1
    | ok v =>
      simp only [hd] at h1 h2
      cases prev with
      | none => exact ih (some v) acc₁ acc₂ out₁ out₂ hsub h1 h2
      | some ph =>
        have h1' : sceneScan d dist t₁ rest (some v)
            (if dist ph v > t₁ then acc₁ ++ [f] else acc₁) = .ok out₁ := h1
        have h2' : sceneScan d dist t₂ rest (some v)
            (if dist ph v > t₂ then acc₂ ++ [f] else acc₂) = .ok out₂ := h2
        by_cases c2 : dist ph v > t₂
        · have c1 : dist ph v > t₁ := lt_of_le_of_lt ht c2
          rw [if_pos c1] at h1'
          rw [if_pos c2] at h2'
          exact ih (some v) _ _ out₁ out₂ (hsub.append (List.Sublist.refl [f])) h1' h2'
        · rw [if_neg c2] at h2'
          by_cases c1 : dist ph v > t₁
          · rw [if_pos c1] at h1'
            exact ih (some v) _ _ out₁ out₂
              (hsub.trans (List.sublist_append_left acc₁ [f])) h1' h2'
          · rw [if_neg c1] at h1'
            exact ih (some v) _ _ out₁ out₂ hsub h1' h2'

/-- C4.  With the decoder and histogram outcomes fixed, raising the
threshold never adds a frame: for `threshold₁ < threshold₂`, the output
of `scene_change_detection` at `threshold₂` is a sublist (order-preserving
subset) of the output at `threshold₁`. -/
theorem scene_change_detection_threshold_mono {α β q : Type} [LinearOrder q]
    (d : α → FrameOutcome β) (dist : β → β → q) (frames : List α)
    {t₁ t₂ : q} (ht : t₁ < t₂) (out₁ out₂ : List α)
    (h1 : scene_change_detection d dist frames t₁ = .ok out₁)
    (h2 : scene_change_detection d dist frames t₂ = .ok out₂) :
    out₂.Sublist out₁ := by
  cases frames with
  | nil =>
    simp only [scene_change_detection] at h1
    cases h1
  | cons f0 rest =>
    simp only [scene_change_detection] at h1 h2
    exact sceneScan_mono d dist ht.le (f0 :: rest) none [f0] [f0] out₁ out₂
      (List.Sublist.refl [f0]) h1 h2

/-- Witness for C4: with decoder `decAll` and distance `distEx` on
`[0, 1, 2]` the output at threshold `5` (namely `[0]`) is a sublist of
the output at threshold `0` (namely `[0, 1, 2]`). -/
theorem scene_change_detection_threshold_mono_witness :
    scene_change_detection decAll distEx [0, 1, 2] (0 : Int) = .ok [0, 1, 2] ∧
    scene_change_detection decAll distEx [0, 1, 2] (5 : Int) = .ok [0] ∧
    List.Sublist ([0] : List Nat) [0, 1, 2] :=
  ⟨rfl, rfl,
    scene_change_detection_threshold_mono decAll distEx [0, 1, 2]
      (show (0 : Int) < 5 by decide) [0, 1, 2] [0] rfl rfl⟩

/-- Frames whose decode yields no raster are invisible to the scene scan:
running the scan on a frame list is the same as running it on the list
with all such frames removed (they touch neither the accumulator nor the
previous-histogram state). -/
theorem sceneScan_skips_undecodable {α β q : Type} [LinearOrder q]
    (d : α → FrameOutcome β) (dist : β → β → q) (t : q) :
    ∀ (fs : List α) (prev : Option β) (acc : List α),
      sceneScan d dist t fs prev acc =
        sceneScan d dist t (fs.filter fun f => !(d f).isFail) prev acc := by
  intro fs
  induction fs with
  | nil => intro prev acc; rfl
  | cons f rest ih =>
    intro prev acc
    cases hd : d f with
    | imgNone =>
      have hfilter : (f :: rest).filter (fun g => !(d g).isFail) =
          rest.filter (fun g => !(d g).isFail) := by
        rw [List.filter_cons]
        simp [hd, FrameOutcome.isFail]
      rw [hfilter]
      have hstep : sceneScan d dist t (f :: rest) prev acc =
          sceneScan d dist t rest prev acc := by
        simp only [sceneScan, hd]
      rw [hstep]
      exact ih prev acc
    | exc =>
      have hfilter : (f :: rest).filter (fun g => !(d g).isFail) =
          f :: rest.filter (fun g => !(d g).isFail) := by
        rw [List.filter_cons]
        simp [hd, FrameOutcome.isFail]
      rw [hfilter]
      simp only [sceneScan, hd]
    | ok v =>
      have hfilter : (f :: rest).filter (fun g => !(d g).isFail) =
          f :: rest.filter (fun g => !(d g).isFail) := by
        rw [List.filter_cons]
        simp [hd, FrameOutcome.isFail]
      rw [hfilter]
      simp only [sceneScan, hd]
      exact ih (some v) _

/-- C1 counterexample: with decoder `decEx`, frame `0` fails to decode and
frame `1` is the first successfully decoded frame, yet
`scene_change_detection` on `[0, 1]` outputs exactly `[0]` — the first
successfully decoded frame is absent and the decode-failed frame is
present. -/
theorem scene_first_decoded_cex :
    decEx 0 = .imgNone ∧ decEx 1 = .ok 1 ∧
    scene_change_detection decEx distEx [0, 1] (5 : Int) = .ok [0] ∧
    ¬ (1 : Nat) ∈ ([0] : List Nat) :=
  ⟨rfl, rfl, rfl, by decide⟩

/-- C1 (amended).  For every non-empty frames list, `frames[0]` — the
first reference, decoded or not — heads the output unconditionally, and
any frame whose decode fails is skipped entirely by the scan,
contributing neither to the output nor to the previous-histogram state
(the result equals the scan over the list with undecodable frames
removed, still seeded with `frames[0]`). -/
theorem scene_decode_failures_skipped {α β q : Type} [LinearOrder q]
    (d : α → FrameOutcome β) (dist : β → β → q) (f0 : α) (rest : List α)
    (t : q) :
    scene_change_detection d dist (f0 :: rest) t =
      sceneScan d dist t ((f0 :: rest).filter fun f => !(d f).isFail) none [f0] ∧
    (∀ out, scene_change_detection d dist (f0 :: rest) t = .ok out →
      out.head? = some f0) := by
  constructor
  · exact sceneScan_skips_undecodable d dist t (f0 :: rest) none [f0]
  · intro out hout
    obtain ⟨s, hs⟩ := sceneScan_acc_extends d dist t (f0 :: rest) none [f0] out hout
    subst hs
    rfl

/-- Witness for C1 (amended) at `frames = [0, 1]` with decoder `decEx`
(frame `0` undecodable): the output `[0]` still heads with `frames[0]`. -/
theorem scene_decode_failures_skipped_witness :
    scene_change_detection decEx distEx (0 :: [1]) (5 : Int) =
      sceneScan decEx distEx 5 ((0 :: [1]).filter fun f => !(decEx f).isFail)
        none [0] ∧
    ([0] : List Nat).head? = some 0 :=
  ⟨(scene_decode_failures_skipped decEx distEx 0 [1] 5).1,
   (scene_decode_failures_skipped decEx distEx 0 [1] 5).2 [0] rfl⟩

/-- C10.  For every non-empty frames list and every threshold, as long as
no frame raises (decoder outcomes are only success or decode failure),
`scene_change_detection` returns a non-empty output whose first element
is `frames[0]` — even when `frames[0]` itself fails to decode, since the
first reference is appended before the scan begins. -/
theorem scene_first_frame_always_output {α β q : Type} [LinearOrder q]
    (d : α → FrameOutcome β) (dist : β → β → q) (f0 : α) (rest : List α)
    (t : q) (hnoexc : ∀ f ∈ f0 :: rest, (d f).isExc = false) :
    ∃ out, scene_change_detection d dist (f0 :: rest) t = .ok out ∧
      out ≠ [] ∧ out.head? = some f0 := by
  obtain ⟨out, hout⟩ := sceneScan_ok d dist t (f0 :: rest) none [f0] hnoexc
  obtain ⟨s, hs⟩ := sceneScan_acc_extends d dist t (f0 :: rest) none [f0] out hout
  subst hs
  exact ⟨[f0] ++ s, hout, by simp, rfl⟩

/-- Witness for C10 at `frames = [0, 1]` with decoder `decEx`: frame `0`
fails to decode yet the output starts with it. -/
theorem scene_first_frame_always_output_witness :
    ∃ out, scene_change_detection decEx distEx (0 :: [1]) (5 : Int) = .ok out ∧
      out ≠ [] ∧ out.head? = some 0 :=
  scene_first_frame_always_output decEx distEx 0 [1] 5 (by decide)

/-- C8 counterexample: `scene_change_detection` called with the negative
threshold `-1` does not fail — it returns a normal result (here the full
list `[0, 1]`), so no `InvalidInput` is raised for negative thresholds. -/
theorem scene_negative_threshold_cex :
    scene_change_detection decAll distEx [0, 1] (-1 : Int) = .ok [0, 1] := rfl

/-- C8 (amended).  `scene_change_detection` performs no threshold
validation: even for a negative threshold it runs the scan normally and
returns a result (whenever the frames list is non-empty and no frame
raises). -/
theorem scene_no_threshold_validation {α β q : Type} [LinearOrder q] [Zero q]
    (d : α → FrameOutcome β) (dist : β → β → q) (frames : List α) (t : q)
    (hneg : t < 0) (hne : frames ≠ [])
    (hnoexc : ∀ f ∈ frames, (d f).isExc = false) :
    ∃ out, scene_change_detection d dist frames t = .ok out := by
  cases frames with
  | nil => exact absurd rfl hne
  | cons f0 rest => exact sceneScan_ok d dist t (f0 :: rest) none [f0] hnoexc

/-- Witness for C8 (amended) at threshold `-1` on `[0, 1]`. -/
theorem scene_no_threshold_validation_witness :
    ∃ out, scene_change_detection decAll distEx [0, 1] (-1 : Int) = .ok out :=
  scene_no_threshold_validation decAll distEx [0, 1] (-1) (by decide)
    (by decide) (by decide)

/-- C5 counterexample: in `scene_change_detection` an unexpected
per-frame fault is not caught — with a decoder that raises, the whole
call aborts with `processingFault`, a hard failure distinct from every
`InvalidInput`. -/
theorem scene_fault_propagates_cex :
    scene_change_detection decExc distEx [0, 1, 2] (5 : Int) =
      .error .processingFault ∧
    ∀ m, (SelectError.processingFault : SelectError) ≠ .invalidInput m :=
  ⟨rfl, fun _ h => SelectError.noConfusion h⟩

/-- C5 (amended).  `motion_based_sampling` absorbs every per-frame
condition — decode failure, dimension mismatch and unexpected faults —
and surfaces only `InvalidInput` (given valid arguments it always
returns a result); `scene_change_detection` absorbs only decode failure:
it returns a result whenever no frame raises, but (per the
counterexample) an unexpected per-frame fault aborts it. -/
theorem per_frame_fault_policy {α β ρ q q' : Type} [LinearOrder q] [Zero q]
    [LinearOrder q'] (d : α → FrameOutcome ρ) (shp : ρ → Nat × Nat)
    (flowMag : ρ → ρ → q) (d' : α → FrameOutcome β) (dist : β → β → q') :
    (∀ (frames : List α) (t : q), frames ≠ [] → ¬ t < 0 →
      ∃ out, motion_based_sampling d shp flowMag frames t = .ok out) ∧
    (∀ (frames : List α) (t : q'), frames ≠ [] →
      (∀ f ∈ frames, (d' f).isExc = false) →
      ∃ out, scene_change_detection d' dist frames t = .ok out) := by
  constructor
  · intro frames t hne hnn
    have hempty : frames.isEmpty = false := by
      cases frames with
      | nil => exact absurd rfl hne
      | cons a l => rfl
    exact ⟨(motionScanFull d shp flowMag t frames none []).1,
      by simp [motion_based_sampling, hempty, hnn]⟩
  · intro frames t hne hnoexc
    cases frames with
    | nil => exact absurd rfl hne
    | cons f0 rest => exact sceneScan_ok d' dist t (f0 :: rest) none [f0] hnoexc

/-- Witness for C5 (amended): both halves applied at concrete inputs. -/
theorem per_frame_fault_policy_witness :
    (∃ out, motion_based_sampling decFlat id flowOne [0, 1] (0 : Int) = .ok out) ∧
    (∃ out, scene_change_detection decEx distEx [0, 1] (5 : Int) = .ok out) :=
  ⟨(per_frame_fault_policy decFlat id flowOne decEx distEx).1 [0, 1] 0
      (by decide) (by decide),
   (per_frame_fault_policy decFlat id flowOne decEx distEx).2 [0, 1] 5
      (by decide) (by decide)⟩

/-- C6.  All three selectors raise `InvalidInput` on an empty frames
list; `uniform_sampling` additionally raises it for `count ≤ 0` and
`motion_based_sampling` for `threshold < 0`.  In each case the call
yields an error, so no partial result is returned and no frame is
processed. -/
theorem invalid_input_validation {α β ρ q q' : Type} [LinearOrder q'] [LinearOrder q]
    [Zero q] (d : α → FrameOutcome β) (dist : β → β → q')
    (d' : α → FrameOutcome ρ) (shp : ρ → Nat × Nat) (flowMag : ρ → ρ → q) :
    (∀ count : Int, uniform_sampling (α := α) [] count =
      .error (.invalidInput "Empty frames list provided")) ∧
    (∀ (frames : List α) (count : Int), count ≤ 0 →
      ∃ m, uniform_sampling frames count = .error (.invalidInput m)) ∧
    (∀ t : q', scene_change_detection d dist ([] : List α) t =
      .error (.invalidInput "Empty frames list provided")) ∧
    (∀ t : q, motion_based_sampling d' shp flowMag ([] : List α) t =
      .error (.invalidInput "Empty frames list provided")) ∧
    (∀ (frames : List α) (t : q), t < 0 →
      ∃ m, motion_based_sampling d' shp flowMag frames t =
        .error (.invalidInput m)) := by
  refine ⟨fun count => rfl, ?_, fun t => rfl, fun t => rfl, ?_⟩
  · intro frames count hc
    cases hf : frames.isEmpty
    · exact ⟨"num_samples must be positive", by simp [uniform_sampling, hf, hc]⟩
    · exact ⟨"Empty frames list provided", by simp [uniform_sampling, hf]⟩
  · intro frames t ht
    cases hf : frames.isEmpty
    · exact ⟨"threshold must be non-negative",
        by simp [motion_based_sampling, hf, ht]⟩
    · exact ⟨"Empty frames list provided", by simp [motion_based_sampling, hf]⟩

/-- Witness for C6: each validation fired at a concrete input. -/
theorem invalid_input_validation_witness :
    (uniform_sampling (α := Nat) [] 3 =
      .error (.invalidInput "Empty frames list provided")) ∧
    (∃ m, uniform_sampling ([5, 6] : List Nat) 0 = .error (.invalidInput m)) ∧
    (scene_change_detection decAll distEx ([] : List Nat) (5 : Int) =
      .error (.invalidInput "Empty frames list provided")) ∧
    (motion_based_sampling decFlat id flowOne ([] : List Nat) (0 : Int) =
      .error (.invalidInput "Empty frames list provided")) ∧
    (∃ m, motion_based_sampling decFlat id flowOne ([5, 6] : List Nat)
      (-1 : Int) = .error (.invalidInput m)) :=
  ⟨(invalid_input_validation decAll distEx decFlat id flowOne).1 3,
   (invalid_input_validation decAll distEx decFlat id flowOne).2.1 [5, 6] 0
     (by decide),
   (invalid_input_validation decAll distEx decFlat id flowOne).2.2.1 5,
   (invalid_input_validation decAll distEx decFlat id flowOne).2.2.2.1 0,
   (invalid_input_validation decAll distEx decFlat id flowOne).2.2.2.2 [5, 6]
     (-1) (by decide)⟩

/-! Step equations for the motion scan. -/

theorem motionScanFull_cons_fail {α ρ q : Type} [LinearOrder q]
    (d : α → FrameOutcome ρ) (shp : ρ → Nat × Nat) (flowMag : ρ → ρ → q)
    (t : q) {f : α} (rest : List α) (prev : Option ρ) (acc : List α)
    (hd : d f = .imgNone) :
    motionScanFull d shp flowMag t (f :: rest) prev acc =
      motionScanFull d shp flowMag t rest prev acc := by
  simp only [motionScanFull, hd]

theorem motionScanFull_cons_exc {α ρ q : Type} [LinearOrder q]
    (d : α → FrameOutcome ρ) (shp : ρ → Nat × Nat) (flowMag : ρ → ρ → q)
    (t : q) {f : α} (rest : List α) (prev : Option ρ) (acc : List α)
    (hd : d f = .exc) :
    motionScanFull d shp flowMag t (f :: rest) prev acc =
      motionScanFull d shp flowMag t rest prev acc := by
  simp only [motionScanFull, hd]

theorem motionScanFull_cons_first {α ρ q : Type} [LinearOrder q]
    (d : α → FrameOutcome ρ) (shp : ρ → Nat × Nat) (flowMag : ρ → ρ → q)
    (t : q) {f : α} (rest : List α) (acc : List α) {r : ρ}
    (hd : d f = .ok r) :
    motionScanFull d shp flowMag t (f :: rest) none acc =
      motionScanFull d shp flowMag t rest (some r) acc := by
  simp only [motionScanFull, hd]

theorem motionScanFull_cons_mismatch {α ρ q : Type} [LinearOrder q]
    (d : α → FrameOutcome ρ) (shp : ρ → Nat × Nat) (flowMag : ρ → ρ → q)
    (t : q) {f : α} (rest : List α) {p r : ρ} (acc : List α)
    (hd : d f = .ok r) (hm : shp p ≠ shp r) :
    motionScanFull d shp flowMag t (f :: rest) (some p) acc =
      motionScanFull d shp flowMag t rest (some p) acc := by
  simp only [motionScanFull, hd]
  exact if_pos hm

theorem motionScanFull_cons_match {α ρ q : Type} [LinearOrder q]
    (d : α → FrameOutcome ρ) (shp : ρ → Nat × Nat) (flowMag : ρ → ρ → q)
    (t : q) {f : α} (rest : List α) {p r : ρ} (acc : List α)
    (hd : d f = .ok r) (hm : ¬ shp p ≠ shp r) :
    motionScanFull d shp flowMag t (f :: rest) (some p) acc =
      motionScanFull d shp flowMag t rest (some r)
        (if flowMag p r > t then acc ++ [f] else acc) := by
  simp only [motionScanFull, hd]
  exact if_neg hm

/-- The motion scan only ever appends to its accumulator, and what it
appends is an order-preserving subsequence of the scanned frames. -/
theorem motionScanFull_acc {α ρ q : Type} [LinearOrder q]
    (d : α → FrameOutcome ρ) (shp : ρ → Nat × Nat) (flowMag : ρ → ρ → q)
    (t : q) :
    ∀ (fs : List α) (prev : Option ρ) (acc : List α),
      ∃ s, (motionScanFull d shp flowMag t fs prev acc).1 = acc ++ s ∧
        s.Sublist fs := by
  intro fs
  induction fs with
  | nil =>
    intro prev acc
    exact ⟨[], by simp [motionScanFull]⟩
  | cons f rest ih =>
    intro prev acc
    cases hd : d f with
    | imgNone =>
      rw [motionScanFull_cons_fail d shp flowMag t rest prev acc hd]
      obtain ⟨s, hs, hsub⟩ := ih prev acc
      exact ⟨s, hs, hsub.cons f⟩
    | exc =>
      rw [motionScanFull_cons_exc d shp flowMag t rest prev acc hd]
      obtain ⟨s, hs, hsub⟩ := ih prev acc
      exact ⟨s, hs, hsub.cons f⟩
    | ok r =>
      cases prev with
      | none =>
        rw [motionScanFull_cons_first d shp flowMag t rest acc hd]
        obtain ⟨s, hs, hsub⟩ := ih (some r) acc
        exact ⟨s, hs, hsub.cons f⟩
      | some p =>
        by_cases hm : shp p ≠ shp r
        · rw [motionScanFull_cons_mismatch d shp flowMag t rest acc hd hm]
          obtain ⟨s, hs, hsub⟩ := ih (some p) acc
          exact ⟨s, hs, hsub.cons f⟩
        · rw [motionScanFull_cons_match d shp flowMag t rest acc hd hm]
          by_cases hf : flowMag p r > t
          · rw [if_pos hf]
            obtain ⟨s, hs, hsub⟩ := ih (some r) (acc ++ [f])
            exact ⟨[f] ++ s, by simpa using hs, hsub.cons₂ f⟩
          · rw [if_neg hf]
            obtain ⟨s, hs, hsub⟩ := ih (some r) acc
            exact ⟨s, hs, hsub.cons f⟩

/-- C7.  For every non-empty frames list and non-negative threshold,
`motion_based_sampling` succeeds with an output that is an
order-preserving subsequence of `frames.tail` — hence also of `frames`,
containing no reference not in the input — and the first frame, at its
first position, is never selected: if it does not recur later in the
list, it is not in the output at all. -/
theorem motion_never_selects_first {α ρ q : Type} [LinearOrder q] [Zero q]
    (d : α → FrameOutcome ρ) (shp : ρ → Nat × Nat) (flowMag : ρ → ρ → q)
    (f0 : α) (rest : List α) (t : q) (ht : ¬ t < 0) :
    ∃ out, motion_based_sampling d shp flowMag (f0 :: rest) t = .ok out ∧
      out.Sublist rest ∧ out.Sublist (f0 :: rest) ∧
      (f0 ∉ rest → f0 ∉ out) := by
  have hrun : motion_based_sampling d shp flowMag (f0 :: rest) t =
      .ok (motionScanFull d shp flowMag t (f0 :: rest) none []).1 := by
    simp [motion_based_sampling, ht]
  have hsub : (motionScanFull d shp flowMag t (f0 :: rest) none []).1.Sublist rest := by
    cases hd : d f0 with
    | imgNone =>
      rw [motionScanFull_cons_fail d shp flowMag t rest none [] hd]
      obtain ⟨s, hs, hsubl⟩ := motionScanFull_acc d shp flowMag t rest none []
      rw [hs]
      simpa using hsubl
    | exc =>
      rw [motionScanFull_cons_exc d shp flowMag t rest none [] hd]
      obtain ⟨s, hs, hsubl⟩ := motionScanFull_acc d shp flowMag t rest none []
      rw [hs]
      simpa using hsubl
    | ok r =>
      rw [motionScanFull_cons_first d shp flowMag t rest [] hd]
      obtain ⟨s, hs, hsubl⟩ := motionScanFull_acc d shp flowMag t rest (some r) []
      rw [hs]
      simpa using hsubl
  refine ⟨_, hrun, hsub, hsub.trans (List.sublist_cons_self f0 rest), ?_⟩
  intro hnot hmem
  exact hnot (hsub.subset hmem)

/-- Witness for C7 at `frames = [0, 1, 2]` with the constant-shape
decoder `decFlat` and constant flow magnitude `1 > 0`: the output is
`[1, 2]`, a sublist of the tail that omits the first frame. -/
theorem motion_never_selects_first_witness :
    ∃ out, motion_based_sampling decFlat id flowOne [0, 1, 2] (0 : Int) = .ok out ∧
      out.Sublist [1, 2] ∧ out.Sublist [0, 1, 2] ∧
      ((0 : Nat) ∉ ([1, 2] : List Nat) → (0 : Nat) ∉ out) :=
  motion_never_selects_first decFlat id flowOne 0 [1, 2] 0 (by decide)

/-- C2 counterexample: with decoder `decShape`, frame `1` decodes
successfully to the 2×2 raster, yet after scanning `[0, 1]` the
previous-state still holds frame `0`'s 1×1 raster — the successfully
decoded frame did *not* become the new previous-state, because the
dimension-mismatch `continue` skips the state update. -/
theorem motion_state_not_updated_cex :
    decShape 1 = .ok (2, 2) ∧
    motionScanFull decShape id flowOne (0 : Int) [0, 1] none [] =
      ([], some (1, 1)) ∧
    (some ((1, 1) : Nat × Nat) ≠ some (2, 2)) ∧
    motion_based_sampling decShape id flowOne [0, 1, 2] (0 : Int) = .ok [] :=
  ⟨rfl, rfl, by decide, rfl⟩

/-- C2 (amended).  When the current frame decodes successfully but its
dimensions differ from the stored previous raster's, the comparison for
that step is skipped without failing the scan *and without touching the
previous-state*: the scan continues on the remaining frames with the old
raster still stored.  The current raster becomes the new previous-state
only when there is no stored raster yet or when the dimensions match. -/
theorem motion_dimension_mismatch_keeps_state {α ρ q : Type} [LinearOrder q]
    (d : α → FrameOutcome ρ) (shp : ρ → Nat × Nat) (flowMag : ρ → ρ → q)
    (t : q) (f : α) (rest : List α) (p r : ρ) (acc : List α)
    (hd : d f = .ok r) :
    (shp p ≠ shp r →
      motionScanFull d shp flowMag t (f :: rest) (some p) acc =
        motionScanFull d shp flowMag t rest (some p) acc) ∧
    (shp p = shp r →
      motionScanFull d shp flowMag t (f :: rest) (some p) acc =
        motionScanFull d shp flowMag t rest (some r)
          (if flowMag p r > t then acc ++ [f] else acc)) ∧
    motionScanFull d shp flowMag t (f :: rest) none acc =
      motionScanFull d shp flowMag t rest (some r) acc := by
  refine ⟨?_, ?_, motionScanFull_cons_first d shp flowMag t rest acc hd⟩
  · intro hm
    exact motionScanFull_cons_mismatch d shp flowMag t rest acc hd hm
  · intro he
    exact motionScanFull_cons_match d shp flowMag t rest acc hd
      (by rw [he]; exact fun h => h rfl)

/-- Witness for C2 (amended) at `decShape` on frames `0` (1×1 raster,
already stored) and `1` (2×2 raster): the mismatch step leaves the
stored raster unchanged. -/
theorem motion_dimension_mismatch_keeps_state_witness :
    motionScanFull decShape id flowOne (0 : Int) [1] (some (1, 1)) [] =
      motionScanFull decShape id flowOne (0 : Int) [] (some (1, 1)) [] :=
  (motion_dimension_mismatch_keeps_state decShape id flowOne 0 1 [] (1, 1)
    (2, 2) [] rfl).1 (by decide)

/-- C9.  Once the motion scan's previous-state raster is set (to some
raster `p`, the first successfully decoded frame's raster), its
dimensions never change for the remainder of the scan: the final state
still holds a raster with `p`'s dimensions, and every frame the scan
appends to the output decoded to a raster with exactly those
dimensions — comparisons never resume at a new frame size. -/
theorem motion_shape_invariant {α ρ q : Type} [LinearOrder q]
    (d : α → FrameOutcome ρ) (shp : ρ → Nat × Nat) (flowMag : ρ → ρ → q)
    (t : q) :
    ∀ (fs : List α) (p : ρ) (acc : List α),
      (∃ p', (motionScanFull d shp flowMag t fs (some p) acc).2 = some p' ∧
        shp p' = shp p) ∧
      (∀ f ∈ (motionScanFull d shp flowMag t fs (some p) acc).1,
        f ∈ acc ∨ ∃ r, d f = .ok r ∧ shp r = shp p) := by
  intro fs
  induction fs with
  | nil =>
    intro p acc
    exact ⟨⟨p, rfl, rfl⟩, fun f hf => .inl hf⟩
  | cons f rest ih =>
    intro p acc
    cases hd : d f with
    | imgNone =>
      rw [motionScanFull_cons_fail d shp flowMag t rest (some p) acc hd]
      exact ih p acc
    | exc =>
      rw [motionScanFull_cons_exc d shp flowMag t rest (some p) acc hd]
      exact ih p acc
    | ok r =>
      by_cases hm : shp p ≠ shp r
      · rw [motionScanFull_cons_mismatch d shp flowMag t rest acc hd hm]
        exact ih p acc
      · rw [motionScanFull_cons_match d shp flowMag t rest acc hd hm]
        push_neg at hm
        obtain ⟨⟨p', hp', hshape⟩, hmem⟩ :=
          ih r (if flowMag p r > t then acc ++ [f] else acc)
        refine ⟨⟨p', hp', by rw [hshape, ← hm]⟩, ?_⟩
        intro g hg
        rcases hmem g hg with hacc | ⟨r', hr', hs'⟩
        · by_cases hf : flowMag p r > t
          · rw [if_pos hf] at hacc
            rcases List.mem_append.mp hacc with h1 | h2
            · exact .inl h1
            · have hgf : g = f := by simpa using h2
              subst hgf
              exact .inr ⟨r, hd, hm.symm⟩
          · rw [if_neg hf] at hacc
            exact .inl hacc
        · exact .inr ⟨r', hr', by rw [hs', ← hm]⟩

/-- Witness for C9: with the constant-shape decoder `decFlat`, starting
from stored raster `(1, 1)` the final state keeps shape `(1, 1)` and the
appended frame `1` decoded to a raster of that same shape. -/
theorem motion_shape_invariant_witness :
    (∃ p', (motionScanFull decFlat id flowOne (0 : Int) [1, 2]
        (some (1, 1)) []).2 = some p' ∧ id p' = id ((1, 1) : Nat × Nat)) ∧
    ((1 : Nat) ∈ ([] : List Nat) ∨
      ∃ r, decFlat 1 = .ok r ∧ id r = id ((1, 1) : Nat × Nat)) :=
  ⟨(motion_shape_invariant decFlat id flowOne 0 [1, 2] (1, 1) []).1,
   (motion_shape_invariant decFlat id flowOne 0 [1, 2] (1, 1) []).2 1
     (by decide)⟩

example : uniform_sampling [0, 1, 2, 3] 2 = .ok [0, 2] := rfl
example : scene_change_detection decEx distEx [0, 1] 5 = .ok [0] := rfl
example : scene_change_detection decAll distEx [0, 1, 2] 0 = .ok [0, 1, 2] := rfl
example : scene_change_detection decAll distEx [0, 1, 2] 5 = .ok [0] := rfl
example : motion_based_sampling decShape id flowOne [0, 1, 2] 0 = .ok [] := rfl
example : motion_based_sampling decFlat id flowOne [0, 1, 2] 0 = .ok [1, 2] := rfl

end FrameSelection
